import Mathlib

/-!
Shallow embedding of the gitscribe burndown engine (src/gitscribe.js):
the effort extractor getTimeSpent and the aggregator generateBurndownChart.

Modelling conventions:
* JavaScript numbers are modelled as exact rationals extended with NaN and
  signed infinities (JSN).  Finite arithmetic is exact; the claims are about
  the rational-level behaviour of the formulas, not float64 rounding.
* Timestamps (Date values) are integer milliseconds since the epoch.
* JavaScript arrays are length-tracked partial maps (JSArray): writing at an
  index at or past the length extends the array; unassigned slots are holes;
  reading a hole or out of range yields undefined, and undefined entering
  arithmetic yields NaN.  Writes to non-index keys (array[null], array[NaN])
  become properties invisible to length and indexing; we count them in junk.
* Fallible code (undefined dereferences, invalid array lengths) returns
  Except JSError; a thrown TypeError or RangeError aborts the computation.
-/

deriving instance DecidableEq for Except

namespace GitScribe

/-- Errors that the JavaScript source can throw. -/
inductive JSError where
  | typeError : JSError
  | rangeError : JSError
deriving DecidableEq

/-- A JavaScript number: NaN, a signed infinity, or an exact finite value. -/
inductive JSN where
  | nan : JSN
  | inf : Bool → JSN
  | num : ℚ → JSN
deriving DecidableEq

/-- IEEE addition on JSN values. -/
def jsAdd : JSN → JSN → JSN
  | .nan, _ => .nan
  | _, .nan => .nan
  | .inf p, .inf q => if p = q then .inf p else .nan
  | .inf p, .num _ => .inf p
  | .num _, .inf q => .inf q
  | .num a, .num b => .num (a + b)

/-- IEEE negation on JSN values. -/
def jsNeg : JSN → JSN
  | .nan => .nan
  | .inf p => .inf (!p)
  | .num a => .num (-a)

/-- IEEE subtraction on JSN values. -/
def jsSub (a b : JSN) : JSN := jsAdd a (jsNeg b)

/-- IEEE multiplication on JSN values. -/
def jsMul : JSN → JSN → JSN
  | .nan, _ => .nan
  | _, .nan => .nan
  | .inf p, .inf q => .inf (p = q)
  | .inf p, .num b => if b = 0 then .nan else .inf (p = decide (0 < b))
  | .num a, .inf q => if a = 0 then .nan else .inf (q = decide (0 < a))
  | .num a, .num b => .num (a * b)

/-- IEEE division on JSN values (divisor zero is positive zero here, since
the only zero divisor in the source is the exact integer days - 1). -/
def jsDiv : JSN → JSN → JSN
  | .nan, _ => .nan
  | _, .nan => .nan
  | .inf _, .inf _ => .nan
  | .inf p, .num b => if b = 0 then .inf p else .inf (p = decide (0 < b))
  | .num _, .inf _ => .num 0
  | .num a, .num b =>
      if b = 0 then (if a = 0 then .nan else .inf (decide (0 < a)))
      else .num (a / b)

/-- A JavaScript array of numbers: a length plus a partial map of slots.
A slot holding none is a hole (or is past the length); junk counts
accumulations done through non-index keys such as array[null]. -/
structure JSArray where
  len : Nat
  cell : Nat → Option JSN
  junk : Nat

/-- The array new Array(n).fill(v). -/
def JSArray.filled (n : Nat) (v : JSN) : JSArray :=
  ⟨n, fun i => if i < n then some v else none, 0⟩

/-- Reading slot i: undefined (none) when out of range or a hole. -/
def JSArray.read (a : JSArray) (i : Nat) : Option JSN :=
  if i < a.len then a.cell i else none

/-- Undefined entering arithmetic becomes NaN. -/
def undefAdd : Option JSN → JSN → JSN
  | some v, w => jsAdd v w
  | none, _ => .nan

/-- The compound assignment a[i] += v: reads slot i (undefined when absent),
adds, stores, and extends the length when i is at or past the end. -/
def JSArray.addAt (a : JSArray) (i : Nat) (v : JSN) : JSArray :=
  ⟨max a.len (i + 1),
   fun j => if j = i then some (undefAdd (a.read i) v) else a.cell j,
   a.junk⟩

/-- An accumulation through a non-index key (array[null] or array[NaN]):
invisible to length and indexing. -/
def JSArray.addJunk (a : JSArray) : JSArray := ⟨a.len, a.cell, a.junk + 1⟩

/-- The array new Array(n).fill(0).map((unused, i) => f i). -/
def JSArray.ofFn (n : Nat) (f : Nat → JSN) : JSArray :=
  ⟨n, fun i => if i < n then some (f i) else none, 0⟩

/-- Array.prototype.reduce((s, x) => s + x, 0) over slice(0, i + 1):
holes are skipped by reduce; assigned slots (including NaN) participate. -/
def JSArray.sumTo (a : JSArray) (i : Nat) : JSN :=
  (List.range (min (i + 1) a.len)).foldl
    (fun acc j => match a.cell j with
      | some v => jsAdd acc v
      | none => acc)
    (.num 0)

/-- Array.prototype.reduce((s, x) => s + x, 0) over the whole array. -/
def JSArray.sumAll (a : JSArray) : JSN :=
  (List.range a.len).foldl
    (fun acc j => match a.cell j with
      | some v => jsAdd acc v
      | none => acc)
    (.num 0)

/-- The rational value of an integer, in kernel-reducible form. -/
def intQ (n : Int) : ℚ := mkRat n 1

/-- The rational value of a natural number, in kernel-reducible form. -/
def natQ (n : Nat) : ℚ := mkRat (Int.ofNat n) 1

/-- Math.round: floor(x + 1/2), exactly JavaScript's rounding rule. -/
def jsRound (q : ℚ) : Int := ⌊q + mkRat 1 2⌋

/-- The source constant MILLISECONDS_IN_DAY = 24 * 60 * 60 * 1000. -/
def MILLISECONDS_IN_DAY : Int := 24 * 60 * 60 * 1000

/-! Regex helpers, faithful to the literal patterns of getTimeSpent.
Strings are handled as lists of characters; the dot of a JavaScript regex
does not match line terminators. -/

/-- Line terminators that the JavaScript dot does not match. -/
def isLineTerm (c : Char) : Bool :=
  c = '\n' || c = '\r' || c.toNat = 8232 || c.toNat = 8233

/-- True when no character is a line terminator, i.e. a run the dot can eat. -/
def noLineTerm (s : List Char) : Bool := s.all (fun c => !isLineTerm c)

/-- Shape \d{4}-\d{2}-\d{2} over exactly ten characters. -/
def dateShape : List Char → Bool
  | [a, b, c, d, s₁, e, f, s₂, g, h] =>
      a.isDigit && b.isDigit && c.isDigit && d.isDigit && s₁ = '-' &&
      e.isDigit && f.isDigit && s₂ = '-' && g.isDigit && h.isDigit
  | _ => false

/-- Test for the filter regex of getTimeSpent,
the pattern anchored at both ends: added, any dot-run, at, a date.
The tail at-plus-date part is 13 characters and anchored at the end, so the
decomposition is unique: the string starts with added, the last 13
characters are at-space-date, and the middle crosses no line terminator. -/
def isSpendingBody (s : List Char) : Bool :=
  18 ≤ s.length &&
  ([ 'a', 'd', 'd', 'e', 'd' ] : List Char).isPrefixOf s &&
  (let tail := s.drop (s.length - 13)
   ([ 'a', 't', ' ' ] : List Char).isPrefixOf tail && dateShape (tail.drop 3)) &&
  noLineTerm ((s.drop 5).take (s.length - 18))

/-- End position of the greedy capture: the largest j such that space-a-t
starts at position j and the group before j crosses no line terminator
(the backtracking of the greedy dot-star stops at the last space-a-t the
dot can reach). -/
def lastSpaceAt : List Char → Option Nat
  | [] => none
  | x :: xs =>
      match (if !isLineTerm x then (lastSpaceAt xs).map (· + 1) else none) with
      | some j => some j
      | none =>
          if ([ ' ', 'a', 't' ] : List Char).isPrefixOf (x :: xs) then some 0 else none

/-- The greedy capture taken from position i: the longest valid group. -/
def groupAt (t : List Char) : Option (List Char) :=
  (lastSpaceAt t).map (fun j => t.take j)

/-- Leftmost match of the regex added-space-group-space-at: the first
position where the literal added-space matches and a group end exists;
returns the captured group (JavaScript match result index 1), or none when
the regex does not match anywhere (match returns null). -/
def matchAddedGroup : List Char → Option (List Char)
  | [] => none
  | x :: xs =>
      if ([ 'a', 'd', 'd', 'e', 'd', ' ' ] : List Char).isPrefixOf (x :: xs)
         && ((groupAt ((x :: xs).drop 6)).isSome) then
        groupAt ((x :: xs).drop 6)
      else matchAddedGroup xs

/-- Maximal run of decimal digits at the front. -/
def digitRun (s : List Char) : List Char := s.takeWhile (fun c => c.isDigit)

/-- Leftmost match of a pattern digits-then-marker (the sub-patterns for
d, h and m); returns the digit part of the match (slice(0, -1)). -/
def findNumSuffix (marker : Char) : List Char → Option (List Char)
  | [] => none
  | x :: xs =>
      if x.isDigit then
        let r := x :: digitRun xs
        match (x :: xs).drop r.length with
        | y :: _ => if y = marker then some r else findNumSuffix marker xs
        | [] => findNumSuffix marker xs
      else findNumSuffix marker xs

/-- Number of a nonempty decimal digit string. -/
def digitsToNat (s : List Char) : Nat :=
  s.foldl (fun n c => 10 * n + (c.toNat - '0'.toNat)) 0

/-- Leftmost match of the regex at-space-date used to extract the
contribution date; returns the ten captured date characters. -/
def findDateMatch : List Char → Option (List Char)
  | [] => none
  | x :: xs =>
      if ([ 'a', 't', ' ' ] : List Char).isPrefixOf (x :: xs)
         && dateShape (((x :: xs).drop 3).take 10) then
        some (((x :: xs).drop 3).take 10)
      else findDateMatch xs

/-! Calendar conversion: new Date on a YYYY-MM-DD string yields UTC midnight
of that civil date, or an Invalid Date (timestamp NaN) when the components
are out of range.  days-from-civil is the standard Gregorian algorithm. -/

/-- Leap year rule of the Gregorian calendar. -/
def isLeapYear (y : Nat) : Bool := (y % 4 = 0 && y % 100 ≠ 0) || y % 400 = 0

/-- Days in a month (m between 1 and 12). -/
def daysInMonth (y m : Nat) : Nat :=
  if m = 2 then (if isLeapYear y then 29 else 28)
  else if m = 4 || m = 6 || m = 9 || m = 11 then 30
  else 31

/-- Days since the Unix epoch of a civil date (Gregorian, proleptic). -/
def daysFromCivil (y m d : Int) : Int :=
  let y' := y - (if m ≤ 2 then 1 else 0)
  let era := Int.fdiv y' 400
  let yoe := y' - era * 400
  let mp := m + (if 2 < m then -3 else 9)
  let doy := Int.fdiv (153 * mp + 2) 5 + d - 1
  let doe := yoe * 365 + Int.fdiv yoe 4 - Int.fdiv yoe 100 + doy
  era * 146097 + doe - 719468

/-- Timestamp (ms) of new Date applied to a ten-character YYYY-MM-DD
string: UTC midnight when the components are in calendar range, none
(an Invalid Date, i.e. NaN timestamp) otherwise. -/
def dateStrToMs (s : List Char) : Option Int :=
  match s with
  | [a, b, c, d, _, e, f, _, g, h] =>
      let y := digitsToNat [a, b, c, d]
      let m := digitsToNat [e, f]
      let dd := digitsToNat [g, h]
      if 1 ≤ m ∧ m ≤ 12 ∧ 1 ≤ dd ∧ dd ≤ daysInMonth y m then
        some (daysFromCivil y m dd * 86400000)
      else none
  | _ => none

/-! Data model, mirroring the shapes the source reads from the GitLab API. -/

/-- A note of a discussion comment (body, system flag, timestamps in ms). -/
structure Note where
  body : String
  system : Bool
  createdAt : Int
  updatedAt : Int
deriving DecidableEq

/-- A discussion comment: an author and an ordered list of notes. -/
structure Comment where
  author : String
  notes : List Note
deriving DecidableEq

/-- An issue, with its discussion merged in; closedAt none means open and
totalTimeSpentSeconds is issue.timeStats.totalTimeSpent. -/
structure Issue where
  closedAt : Option Int
  totalTimeSpentSeconds : ℚ
  labels : List String
  discussion : List Comment
deriving DecidableEq

/-- A milestone: title, iid, window start and due timestamps (ms). -/
structure Milestone where
  title : String
  iid : Nat
  startDate : Int
  dueDate : Int
deriving DecidableEq

/-- One parsed spending comment (the object built by the map step of
getTimeSpent).  The date key is none when new Date produced an Invalid
Date, whose timestamp is NaN. -/
structure Spending where
  author : String
  date : Option Int
  days : Nat
  hours : Nat
  minutes : Nat
  totalHours : ℚ
deriving DecidableEq

/-- The effort ledger returned by getTimeSpent.  days is the object
timeSpent.days as an insertion-ordered association list keyed by
date.getTime() (none is the shared NaN key of every Invalid Date);
extra holds numeric-keyed properties of the timeSpent object itself,
which the source reads on line 144 but never assigns, so it stays empty. -/
structure TimeSpent where
  total : ℚ
  days : List (Option Int × ℚ)
  extra : List (Option Int × ℚ)
deriving DecidableEq

/-- Property read on a JavaScript object modelled as an association list. -/
def objGet : List (Option Int × ℚ) → Option Int → Option ℚ
  | [], _ => none
  | (k', v') :: rest, k => if k' = k then some v' else objGet rest k

/-- Property assignment: overwrite in place, else append (JavaScript
objects keep the original insertion position of an overwritten key). -/
def objSet : List (Option Int × ℚ) → Option Int → ℚ → List (Option Int × ℚ)
  | [], k, v => [(k, v)]
  | (k', v') :: rest, k, v =>
      if k' = k then (k', v) :: rest else (k', v') :: objSet rest k v

/-- The filter callback of getTimeSpent applied to one comment, reading
comment.notes[0]; dereferencing the first note of a comment with no notes
throws a TypeError. -/
def spendKeep (startDate endDate : Int) (c : Comment) : Except JSError Bool :=
  match c.notes.head? with
  | none => .error .typeError
  | some note =>
      .ok (isSpendingBody note.body.data && note.system &&
           decide (startDate ≤ note.createdAt) && decide (note.createdAt ≤ endDate))

/-- issue.discussion.filter(...) with the spending predicate; the callback
runs left to right and its TypeError aborts the whole call. -/
def spendFilter (startDate endDate : Int) : List Comment → Except JSError (List Comment)
  | [] => .ok []
  | c :: cs =>
      match spendKeep startDate endDate c with
      | .error e => .error e
      | .ok keep =>
          match spendFilter startDate endDate cs with
          | .error e => .error e
          | .ok rest => .ok (if keep then c :: rest else rest)

/-- The map callback of getTimeSpent on one kept comment: parses the
duration sub-patterns (absent components are zero, via the ternary with
fallback 0), converts with the one-day-equals-eight-hours rule, and parses
the contribution date.  Reading capture 1 of a failed match (a body with
no space-at after added-space) throws a TypeError. -/
def mkSpending (c : Comment) : Except JSError Spending :=
  match c.notes.head? with
  | none => .error .typeError
  | some note =>
      let body := note.body.data
      match matchAddedGroup body with
      | none => .error .typeError
      | some humanReadableTime =>
          let days := ((findNumSuffix 'd' humanReadableTime).map digitsToNat).getD 0
          let hours := ((findNumSuffix 'h' humanReadableTime).map digitsToNat).getD 0
          let minutes := ((findNumSuffix 'm' humanReadableTime).map digitsToNat).getD 0
          let totalHours : ℚ := natQ days * natQ 8 + natQ hours + natQ minutes / natQ 60
          match findDateMatch body with
          | none => .error .typeError
          | some ds => .ok ⟨c.author, dateStrToMs ds, days, hours, minutes, totalHours⟩

/-- kept.map(mkSpending), aborting on the first thrown TypeError. -/
def mapSpendings : List Comment → Except JSError (List Spending)
  | [] => .ok []
  | c :: cs =>
      match mkSpending c with
      | .error e => .error e
      | .ok s =>
          match mapSpendings cs with
          | .error e => .error e
          | .ok rest => .ok (s :: rest)

/-- The accumulation loop of getTimeSpent.  The source (line 144) assigns
timeSpent.days[k] from timeSpent[k] (not timeSpent.days[k]): the read goes
to the numeric-keyed properties of the timeSpent object itself, which are
never assigned, so each same-day entry overwrites instead of summing. -/
def accumDays (spendings : List Spending) (ts : TimeSpent) : TimeSpent :=
  spendings.foldl
    (fun ts s =>
      { ts with days := objSet ts.days s.date (((objGet ts.extra s.date).getD 0) + s.totalHours) })
    ts

/-- getTimeSpent(issue, startDate, endDate): filter the discussion to
system spending notes created inside the window, parse each into a
spending, total the hours, and build the per-day object. -/
def getTimeSpent (issue : Issue) (startDate endDate : Int) : Except JSError TimeSpent :=
  match spendFilter startDate endDate issue.discussion with
  | .error e => .error e
  | .ok kept =>
      match mapSpendings kept with
      | .error e => .error e
      | .ok spendings =>
          let total := spendings.foldl (fun t s => t + s.totalHours) 0
          .ok (accumDays spendings ⟨total, [], []⟩)

/-! The burndown aggregator generateBurndownChart. -/

/-- Key used by the discussion sort comparator: the update timestamp of
comment.notes[0]. -/
def commentUpdatedAt (c : Comment) : Int :=
  match c.notes.head? with
  | some n => n.updatedAt
  | none => 0

/-- Stable insertion into a list sorted by descending key: a comment goes
after every comment whose key is at least its own. -/
def insertDescByKey (c : Comment) : List Comment → List Comment
  | [] => [c]
  | x :: xs =>
      if commentUpdatedAt c ≤ commentUpdatedAt x then x :: insertDescByKey c xs
      else c :: x :: xs

/-- Stable sort by descending update timestamp (newest first), matching
the comparator (a, b) => updateAtB - updateAtA of the source. -/
def sortDescByKey (l : List Comment) : List Comment :=
  l.foldl (fun acc c => insertDescByKey c acc) []

/-- issue.discussion.sort(comparator): the comparator dereferences
notes[0] of both arguments, so when the list has at least two elements
and some comment has no notes the sort throws a TypeError (every element
is handed to the comparator at least once); with at most one element the
comparator never runs. -/
def sortDiscussion (l : List Comment) : Except JSError (List Comment) :=
  if l.length ≤ 1 then .ok l
  else if l.all (fun c => !c.notes.isEmpty) then .ok (sortDescByKey l)
  else .error .typeError

/-- The note body changed milestone to percent-quoted-title. -/
def milestoneBodyTitle (m : Milestone) : String :=
  "changed milestone to %\"" ++ m.title ++ "\""

/-- The note body changed milestone to percent-iid. -/
def milestoneBodyIid (m : Milestone) : String :=
  "changed milestone to %" ++ toString m.iid

/-- Predicate of the find callback: a system note mentioning the
milestone change. -/
def isMilestoneChangeNote (m : Milestone) (note : Note) : Bool :=
  (note.body = milestoneBodyTitle m || note.body = milestoneBodyIid m) && note.system

/-- The find over the sorted discussion for the last milestone change. -/
def findMilestoneComment (m : Milestone) (sorted : List Comment) : Option Comment :=
  sorted.find? (fun c => c.notes.any (fun note => isMilestoneChangeNote m note))

/-- JavaScript total-or-zero: est.total || 0 (only the value 0 is falsy
for an exact rational). -/
def jsOrZero (q : ℚ) : ℚ := if q = 0 then 0 else q

/-- Bucket index of a ledger date key: max(0, round((date - startDate) /
1 day)), clamped below only. -/
def ledgerIdx (startDate dms : Int) : Nat :=
  (max 0 (jsRound (intQ (dms - startDate) / intQ MILLISECONDS_IN_DAY))).toNat

/-- The inner loop folding an effort ledger into effortSpentByDay: each
valid date key is bucketed at max(0, round((date - startDate) / 1 day)) -
clamped below only - and an Invalid-Date key (timestamp NaN) indexes the
array at NaN, a non-index property write. -/
def foldLedgerDays (startDate : Int) (entries : List (Option Int × ℚ)) (a : JSArray) : JSArray :=
  entries.foldl
    (fun acc kv =>
      match kv.1 with
      | some dms => acc.addAt (ledgerIdx startDate dms) (.num kv.2)
      | none => acc.addJunk)
    a

/-- The four per-day accumulator arrays of the aggregation loop. -/
structure LoopState where
  opened : JSArray
  closed : JSArray
  spent : JSArray
  estimated : JSArray

/-- The loop configuration after option defaulting: milestone, window,
day count, resolved effort callbacks and the includeOpen flag. -/
structure Config where
  m : Milestone
  startDate : Int
  dueDate : Int
  days : Int
  getEffort : Issue → Except JSError TimeSpent
  getEffortEstimate : Issue → Except JSError TimeSpent
  includeOpen : Bool

/-- One iteration of the issue loop of generateBurndownChart, in source
order: the discarded getTimeSpent call, the in-place sort of the
discussion, the search for the milestone-change comment (dereferencing
its first note throws a TypeError when the search fails), the day
computations, the two skip conditions, and the per-day accumulations.
The sort mutates the issue, so the effort callbacks see the sorted
discussion. -/
def processIssue (cfg : Config) (st : LoopState) (issue : Issue) : Except JSError LoopState :=
  match getTimeSpent issue cfg.startDate cfg.dueDate with
  | .error e => .error e
  | .ok _ =>
    match sortDiscussion issue.discussion with
    | .error e => .error e
    | .ok sorted =>
      let issue' : Issue := { issue with discussion := sorted }
      match findMilestoneComment cfg.m sorted with
      | none => .error .typeError
      | some found =>
        match found.notes.head? with
        | none => .error .typeError
        | some firstNote =>
          let dayAdded : Int :=
            max 0 (jsRound (intQ (firstNote.updatedAt - cfg.startDate) / intQ MILLISECONDS_IN_DAY))
          let dayClosed : Option Int :=
            issue.closedAt.map (fun t => jsRound (intQ (t - cfg.startDate) / intQ MILLISECONDS_IN_DAY))
          if cfg.days ≤ dayAdded then .ok st
          else if (match dayClosed with | some d => decide (d < 0) | none => false) then .ok st
          else
            match cfg.getEffortEstimate issue' with
            | .error e => .error e
            | .ok est =>
              let st₁ : LoopState :=
                { st with
                  opened := st.opened.addAt dayAdded.toNat (.num 1),
                  estimated := st.estimated.addAt dayAdded.toNat (.num (jsOrZero est.total)) }
              let wasClosedWithinMilestone : Bool :=
                match dayClosed with | some d => decide (d ≤ cfg.days) | none => false
              let st₂ : LoopState :=
                if wasClosedWithinMilestone then
                  match dayClosed with
                  | some d => { st₁ with closed := st₁.closed.addAt d.toNat (.num 1) }
                  | none => st₁
                else st₁
              let isOpenAndShouldBeIncluded : Bool := dayClosed.isNone && cfg.includeOpen
              if wasClosedWithinMilestone || isOpenAndShouldBeIncluded then
                match cfg.getEffort issue' with
                | .error e => .error e
                | .ok effort =>
                  let spent₁ := foldLedgerDays cfg.startDate effort.days st₂.spent
                  let spent₂ :=
                    if effort.days.isEmpty then
                      match dayClosed with
                      | some d => spent₁.addAt d.toNat (.num effort.total)
                      | none => spent₁.addJunk
                    else spent₁
                  .ok { st₂ with spent := spent₂ }
              else .ok st₂

/-- The issue loop: left to right, aborting at the first thrown error. -/
def foldIssues (cfg : Config) : LoopState → List Issue → Except JSError LoopState
  | st, [] => .ok st
  | st, issue :: rest =>
      match processIssue cfg st issue with
      | .error e => .error e
      | .ok st' => foldIssues cfg st' rest

/-- The numeric outputs of the aggregator (the chart data; rendering the
configuration object into a PNG is the external renderer's concern). -/
structure Output where
  issuesOpenedByDay : JSArray
  issuesClosedByDay : JSArray
  effortSpentByDay : JSArray
  effortEstimatedByDay : JSArray
  totalEffort : JSN
  remainingEffort : JSArray
  idealBurndown : JSArray
  completedTasks : JSArray
  remainingTasks : JSArray
  labels : List String

/-- Caller options; a none field means the caller did not pass it and the
default of the option merge applies. -/
structure Options where
  getEffort : Option (Issue → Except JSError TimeSpent) := none
  getEffortEstimate : Option (Issue → Except JSError TimeSpent) := none
  includeOpen : Option Bool := none
  useEstimate : Option Bool := none

/-- The day count Math.ceil((dueDate - startDate) / MILLISECONDS_IN_DAY + 1). -/
def daysOf (m : Milestone) : Int :=
  ⌈intQ (m.dueDate - m.startDate) / intQ MILLISECONDS_IN_DAY + 1⌉

/-- The getEffort callback after option defaulting: the caller's function
when given, else getTimeSpent over the milestone window. -/
def effectiveGetEffort (m : Milestone) (options : Options) : Issue → Except JSError TimeSpent :=
  options.getEffort.getD (fun issue => getTimeSpent issue m.startDate m.dueDate)

/-- The getEffortEstimate callback after option defaulting: the caller's
function when given, else issue.timeStats.totalTimeSpent converted from
seconds to hours with an empty per-day mapping. -/
def effectiveGetEstimate (options : Options) : Issue → Except JSError TimeSpent :=
  options.getEffortEstimate.getD
    (fun issue => .ok ⟨issue.totalTimeSpentSeconds / natQ 60 / natQ 60, [], []⟩)

/-- The loop configuration produced by the option merge of
generateBurndownChart. -/
def configOf (m : Milestone) (options : Options) : Config :=
  ⟨m, m.startDate, m.dueDate, daysOf m,
   effectiveGetEffort m options, effectiveGetEstimate options,
   options.includeOpen.getD false⟩

/-- generateBurndownChart(milestone, milestoneIssues, options): default
the options, allocate the per-day arrays (new Array(days) throws a
RangeError for an invalid length), run the issue loop, then derive the
cumulative series, the ideal burndown and the day labels. -/
def generateBurndownChart (milestone : Milestone) (milestoneIssues : List Issue)
    (options : Options) : Except JSError Output :=
  let useEstimate := options.useEstimate.getD false
  let days : Int := daysOf milestone
  if days < 0 ∨ 4294967296 ≤ days then .error .rangeError
  else
    let n : Nat := days.toNat
    let zeros : JSArray := JSArray.filled n (.num 0)
    match foldIssues (configOf milestone options) ⟨zeros, zeros, zeros, zeros⟩ milestoneIssues with
    | .error e => .error e
    | .ok st =>
      let totalEffort : JSN := if useEstimate then st.estimated.sumAll else st.spent.sumAll
      let remainingEffort : JSArray :=
        if useEstimate then
          JSArray.ofFn n (fun i => jsSub (st.estimated.sumTo i) (st.spent.sumTo i))
        else
          JSArray.ofFn n (fun i => jsSub totalEffort (st.spent.sumTo i))
      let completedTasks := st.closed
      let idealBurndown := JSArray.ofFn n (fun i =>
        jsSub totalEffort (jsMul (jsDiv totalEffort (.num (intQ days - 1))) (.num (natQ i))))
      let remainingTasks := JSArray.ofFn n (fun i =>
        jsSub (st.opened.sumTo i) (st.closed.sumTo i))
      let labels := (List.range n).map (fun day => "Day " ++ toString (day + 1))
      .ok ⟨st.opened, st.closed, st.spent, st.estimated, totalEffort,
           remainingEffort, idealBurndown, completedTasks, remainingTasks, labels⟩

/-! Derived notions used to state the claims. -/

/-- Exit day of an issue relative to a milestone window: defined when the
issue has a close timestamp, as round((closedAt - startDate) / 1 day). -/
def exitDayOf (m : Milestone) (issue : Issue) : Option Int :=
  issue.closedAt.map (fun t => jsRound (intQ (t - m.startDate) / intQ MILLISECONDS_IN_DAY))

/-- Check that the issue's exit day, when defined, is at most days - 1. -/
def exitInWindow (m : Milestone) (issue : Issue) : Bool :=
  match exitDayOf m issue with
  | some e => decide (e ≤ daysOf m - 1)
  | none => true

/-- Check that a ledger entry's bucket index is below n (an Invalid-Date
key never reaches an index, so it passes). -/
def entryIdxLt (startDate : Int) (n : Nat) (p : Option Int × ℚ) : Bool :=
  match p.1 with
  | some d => decide (ledgerIdx startDate d < n)
  | none => true

/-- Check that every entry of the effort ledger the aggregator folds for
this issue is bucketed below days; the effort callback sees the sorted
discussion, exactly as in the loop. -/
def ledgerInWindow (m : Milestone) (getEff : Issue → Except JSError TimeSpent) (issue : Issue) : Bool :=
  match sortDiscussion issue.discussion with
  | .error _ => true
  | .ok sorted =>
      match getEff { issue with discussion := sorted } with
      | .error _ => true
      | .ok ts => ts.days.all (entryIdxLt m.startDate (daysOf m).toNat)

/-! Concrete fixtures for witnesses and counterexamples.  Timestamps:
2020-02-01 is 1580515200000 ms, and one day is 86400000 ms. -/

/-- The window 2020-02-01 .. 2020-02-05 (five days). -/
def sprintMilestone : Milestone := ⟨"Sprint 1", 7, 1580515200000, 1580860800000⟩

/-- A system comment assigning the issue to the milestone on day 0. -/
def msChangeComment : Comment :=
  ⟨"alice", [⟨"changed milestone to %\"Sprint 1\"", true, 1580515200000, 1580515200000⟩]⟩

/-- The scenario issue of the specification: entry day 0, closed
2020-02-03 (exit day 2), 10.5 hours logged at 2020-02-03. -/
def scenarioIssue : Issue :=
  ⟨some 1580688000000, 0, [],
   [msChangeComment,
    ⟨"bob", [⟨"added 1d 2h 30m of time spent at 2020-02-03", true, 1580688000000, 1580688000000⟩]⟩]⟩

/-- An issue closed at 2020-02-06, one day past the window: exit day 5 =
days. -/
def lateClosedIssue : Issue := ⟨some 1580947200000, 0, [], [msChangeComment]⟩

/-- An issue closed inside the window whose spending note (created inside
the window) carries the body date 2020-03-01, far past the window end. -/
def farLedgerIssue : Issue :=
  ⟨some 1580688000000, 0, [],
   [msChangeComment,
    ⟨"bob", [⟨"added 1h of time spent at 2020-03-01", true, 1580601600000, 1580601600000⟩]⟩]⟩

/-- An issue whose discussion holds no milestone-change system note. -/
def noMilestoneIssue : Issue := ⟨none, 0, [], [⟨"carol", [⟨"hello", true, 0, 0⟩]⟩]⟩

/-- An issue with two spending notes parsing to the same calendar day
(1 hour and then 2 hours, both at 2020-02-25). -/
def twoSameDayIssue : Issue :=
  ⟨none, 0, [],
   [⟨"erin", [⟨"added 1h of time spent at 2020-02-25", true, 1582588800000, 0⟩]⟩,
    ⟨"frank", [⟨"added 2h of time spent at 2020-02-25", true, 1582588800000, 0⟩]⟩]⟩

/-- An issue whose note body passes the spending filter but lacks the
space-at separator the map step needs. -/
def crashBodyIssue : Issue :=
  ⟨none, 0, [], [⟨"gus", [⟨"addedat 2020-02-25", true, 1582588800000, 0⟩]⟩]⟩

/-- A window whose due date equals its start date: days = 1. -/
def oneDayMilestone : Milestone := ⟨"one", 1, 1580515200000, 1580515200000⟩

/-- A window whose due date is one day before its start date: days = 0. -/
def backOneDayMilestone : Milestone := ⟨"back1", 1, 1580515200000, 1580428800000⟩

/-- A window whose due date is two days before its start date: days = -1. -/
def backTwoDayMilestone : Milestone := ⟨"back2", 1, 1580515200000, 1580342400000⟩

/-- A placeholder output, used only to name the concrete outputs of
successful runs in witness statements. -/
def emptyOutput : Output :=
  ⟨⟨0, fun _ => none, 0⟩, ⟨0, fun _ => none, 0⟩, ⟨0, fun _ => none, 0⟩,
   ⟨0, fun _ => none, 0⟩, .num 0, ⟨0, fun _ => none, 0⟩, ⟨0, fun _ => none, 0⟩,
   ⟨0, fun _ => none, 0⟩, ⟨0, fun _ => none, 0⟩, []⟩

/-! Basic lemmas about the array model. -/

/-- Writing at an index keeps the length when the index is in range. -/
theorem JSArray.addAt_len_of_lt {a : JSArray} {i : Nat} (v : JSN) (h : i < a.len) :
    (a.addAt i v).len = a.len := by
  simp [JSArray.addAt, Nat.max_eq_left h]

/-- Writing at an index extends the length to i + 1 when i is past the
end. -/
theorem JSArray.addAt_len_of_ge {a : JSArray} {i : Nat} (v : JSN) (h : a.len ≤ i) :
    (a.addAt i v).len = i + 1 := by
  simp [JSArray.addAt]
  omega

/-- A non-index property write never changes the length. -/
theorem JSArray.addJunk_len (a : JSArray) : a.addJunk.len = a.len := rfl

/-- The filled array has the requested length. -/
theorem JSArray.filled_len (n : Nat) (v : JSN) : (JSArray.filled n v).len = n := rfl

/-- The mapped array has the requested length. -/
theorem JSArray.ofFn_len (n : Nat) (f : Nat → JSN) : (JSArray.ofFn n f).len = n := rfl

/-- Reading a mapped array in range gives the mapped value. -/
theorem JSArray.ofFn_read {n i : Nat} (f : Nat → JSN) (h : i < n) :
    (JSArray.ofFn n f).read i = some (f i) := by
  simp [JSArray.ofFn, JSArray.read, h]

/-- Unfolding step of the ledger fold. -/
theorem foldLedgerDays_cons (s : Int) (p : Option Int × ℚ) (rest : List (Option Int × ℚ))
    (a : JSArray) :
    foldLedgerDays s (p :: rest) a =
      foldLedgerDays s rest
        (match p.1 with
         | some dms => a.addAt (ledgerIdx s dms) (.num p.2)
         | none => a.addJunk) := rfl

/-- The ledger fold preserves the length as long as every entry's bucket
index stays below it. -/
theorem foldLedgerDays_len (s : Int) (entries : List (Option Int × ℚ)) (a : JSArray) (n : Nat)
    (hlen : a.len = n) (hb : ∀ p ∈ entries, entryIdxLt s n p = true) :
    (foldLedgerDays s entries a).len = n := by
  induction entries generalizing a with
  | nil => simpa [foldLedgerDays]
  | cons p rest ih =>
      rw [foldLedgerDays_cons]
      have hp : entryIdxLt s n p = true := hb p (List.mem_cons_self _ _)
      cases hk : p.1 with
      | none =>
          exact ih a.addJunk (by rw [JSArray.addJunk_len, hlen])
            (fun q hq => hb q (List.mem_cons_of_mem _ hq))
      | some dms =>
          have hidx : ledgerIdx s dms < n := by
            have := hp
            unfold entryIdxLt at this
            rw [hk] at this
            exact of_decide_eq_true this
          refine ih _ ?_ (fun q hq => hb q (List.mem_cons_of_mem _ hq))
          rw [JSArray.addAt_len_of_lt _ (hlen ▸ hidx), hlen]

/-- spendFilter on the empty discussion. -/
theorem spendFilter_nil (s e : Int) : spendFilter s e [] = .ok [] := rfl

/-- spendFilter step when the callback keeps the comment. -/
theorem spendFilter_cons_true (s e : Int) (c : Comment) (cs rest : List Comment)
    (hk : spendKeep s e c = .ok true) (hr : spendFilter s e cs = .ok rest) :
    spendFilter s e (c :: cs) = .ok (c :: rest) := by
  unfold spendFilter
  rw [hk, hr]
  rfl

/-- spendFilter step when the callback drops the comment. -/
theorem spendFilter_cons_false (s e : Int) (c : Comment) (cs rest : List Comment)
    (hk : spendKeep s e c = .ok false) (hr : spendFilter s e cs = .ok rest) :
    spendFilter s e (c :: cs) = .ok rest := by
  unfold spendFilter
  rw [hk, hr]
  rfl

/-- mapSpendings on the empty list. -/
theorem mapSpendings_nil : mapSpendings [] = .ok [] := rfl

/-- mapSpendings step on a successfully parsed comment. -/
theorem mapSpendings_cons (c : Comment) (cs : List Comment) (sp : Spending) (rest : List Spending)
    (h1 : mkSpending c = .ok sp) (hr : mapSpendings cs = .ok rest) :
    mapSpendings (c :: cs) = .ok (sp :: rest) := by
  unfold mapSpendings
  rw [h1, hr]

/-- getTimeSpent in terms of the results of its filter and map stages. -/
theorem getTimeSpent_eq (issue : Issue) (s e : Int) (kept : List Comment) (sps : List Spending)
    (hf : spendFilter s e issue.discussion = .ok kept)
    (hm : mapSpendings kept = .ok sps) :
    getTimeSpent issue s e
      = .ok (accumDays sps ⟨sps.foldl (fun t sp => t + sp.totalHours) 0, [], []⟩) := by
  unfold getTimeSpent
  rw [hf]
  dsimp only
  rw [hm]

/-- mkSpending in terms of the results of its sub-pattern matches. -/
theorem mkSpending_eq (c : Comment) (note : Note) (g d10 : List Char) (ms : Option Int)
    (dv hv mv : Nat)
    (hhead : c.notes.head? = some note)
    (hg : matchAddedGroup note.body.data = some g)
    (hd : ((findNumSuffix 'd' g).map digitsToNat).getD 0 = dv)
    (hh : ((findNumSuffix 'h' g).map digitsToNat).getD 0 = hv)
    (hm : ((findNumSuffix 'm' g).map digitsToNat).getD 0 = mv)
    (hdate : findDateMatch note.body.data = some d10)
    (hms : dateStrToMs d10 = ms) :
    mkSpending c = .ok ⟨c.author, ms, dv, hv, mv,
      natQ dv * natQ 8 + natQ hv + natQ mv / natQ 60⟩ := by
  unfold mkSpending
  rw [hhead]
  dsimp only
  rw [hg]
  dsimp only
  rw [hdate]
  dsimp only
  rw [hd, hh, hm, hms]

/-- The timestamp of 2020-02-25. -/
theorem date_20200225 : dateStrToMs "2020-02-25".data = some 1582588800000 := by
  show dateStrToMs ['2', '0', '2', '0', '-', '0', '2', '-', '2', '5'] = some 1582588800000
  unfold dateStrToMs
  dsimp only
  rw [if_pos]
  · exact congrArg some (by with_unfolding_all decide)
  · with_unfolding_all decide

/-- intQ agrees with the integer cast into the rationals. -/
theorem intQ_eq (n : Int) : intQ n = (n : ℚ) := by
  unfold intQ
  rw [Rat.mkRat_one]

/-- natQ agrees with the natural cast into the rationals. -/
theorem natQ_eq (n : Nat) : natQ n = (n : ℚ) := by
  unfold natQ
  rw [Rat.mkRat_one]
  exact Int.cast_natCast n

/-- The thrown error of an aggregator run, when it failed. -/

def errOf (r : Except JSError Output) : Option JSError :=
  match r with
  | .error e => some e
  | .ok _ => none

/-! Claims. -/

/-- C4: the claim says that for a work item whose discussion contains two
or more matching time-spent notes parsing to the same calendar day, the
ledger maps that day to the SUM of the contributions and the total to the
sum of all contributions.  On the code, the total is indeed the sum (3
hours here), but the per-day mapping holds only the LAST contribution (2
hours): line 144 reads timeSpent[k] - a key that is never assigned on the
timeSpent object - instead of timeSpent.days[k], so the accumulation read
is always undefined and each same-day entry overwrites the previous one.
This theorem evaluates the extractor at the failing input: two system
notes adding 1 hour and then 2 hours at 2020-02-25. -/
theorem c4_same_day_overwrite :
    getTimeSpent twoSameDayIssue 1580515200000 1583020800000
      = .ok ⟨3, [(some 1582588800000, 2)], []⟩ := by
  have h1 : mkSpending ⟨"erin", [⟨"added 1h of time spent at 2020-02-25", true, 1582588800000, 0⟩]⟩
      = .ok ⟨"erin", some 1582588800000, 0, 1, 0, natQ 0 * natQ 8 + natQ 1 + natQ 0 / natQ 60⟩ :=
    mkSpending_eq _ _ "1h of time spent".data "2020-02-25".data _ 0 1 0 rfl
      (by with_unfolding_all decide) (by with_unfolding_all decide)
      (by with_unfolding_all decide) (by with_unfolding_all decide)
      (by with_unfolding_all decide) date_20200225
  have h2 : mkSpending ⟨"frank", [⟨"added 2h of time spent at 2020-02-25", true, 1582588800000, 0⟩]⟩
      = .ok ⟨"frank", some 1582588800000, 0, 2, 0, natQ 0 * natQ 8 + natQ 2 + natQ 0 / natQ 60⟩ :=
    mkSpending_eq _ _ "2h of time spent".data "2020-02-25".data _ 0 2 0 rfl
      (by with_unfolding_all decide) (by with_unfolding_all decide)
      (by with_unfolding_all decide) (by with_unfolding_all decide)
      (by with_unfolding_all decide) date_20200225
  rw [getTimeSpent_eq twoSameDayIssue 1580515200000 1583020800000 twoSameDayIssue.discussion _
    (spendFilter_cons_true _ _ _ _ _ (by with_unfolding_all decide)
      (spendFilter_cons_true _ _ _ _ _ (by with_unfolding_all decide) (spendFilter_nil _ _)))
    (mapSpendings_cons _ _ _ _ h1 (mapSpendings_cons _ _ _ _ h2 mapSpendings_nil))]
  refine congrArg Except.ok ?_
  unfold accumDays
  simp [objSet, objGet, natQ]
  norm_num [Rat.mkRat_one]

/-- C8: the claim says a due date strictly earlier than the start date
raises InvalidWindow before any output.  The code performs no window
validation at all: with the due date one day before the start date the
run succeeds and returns output (with zero-length series), raising no
error whatsoever. -/
theorem c8_no_error_counterexample :
    backOneDayMilestone.dueDate < backOneDayMilestone.startDate ∧
    (generateBurndownChart backOneDayMilestone [] {}).map (fun o => o.labels.length) = .ok 0 := by
  with_unfolding_all decide

/-- C8 amended: the aggregator never raises a dedicated InvalidWindow
error; the only window-related failure is the RangeError thrown by
new Array(days) when days = ceil((dueDate - startDate) / 1 day + 1) is not
a valid array length (negative, i.e. the due date more than one day before
the start date, or at least 2 to the 32).  A due date earlier than the
start date by at most one day is accepted silently. -/
theorem c8_window_validation (m : Milestone) (issues : List Issue) (opts : Options)
    (h : daysOf m < 0 ∨ 4294967296 ≤ daysOf m) :
    generateBurndownChart m issues opts = .error .rangeError := by
  unfold generateBurndownChart
  rw [if_pos h]

/-- C8 witness: the window with due date two days before the start date
has days = -1, and the run fails with a RangeError. -/
theorem c8_window_validation_witness :
    (daysOf backTwoDayMilestone < 0 ∨ 4294967296 ≤ daysOf backTwoDayMilestone) ∧
    generateBurndownChart backTwoDayMilestone [] {} = .error .rangeError :=
  ⟨by with_unfolding_all decide,
   c8_window_validation backTwoDayMilestone [] {} (by with_unfolding_all decide)⟩

/-- C2: the claim says issuesClosedByDay[exitDay] is incremented exactly
when exitDay is at most days - 1, and an item with exitDay at least days
contributes nothing.  On the code the comparison is exitDay at most days:
an issue closed at 2020-02-06 against the 2020-02-01 .. 2020-02-05 window
has exitDay 5 = days, and the write lands one slot past the end of
issuesClosedByDay, extending it to length 6 with NaN in the new slot
(undefined + 1), so the item does contribute to the series. -/
theorem c2_boundary_counterexample :
    daysOf sprintMilestone = 5 ∧
    exitDayOf sprintMilestone lateClosedIssue = some 5 ∧
    (generateBurndownChart sprintMilestone [lateClosedIssue] {}).map
        (fun o => (o.issuesClosedByDay.len, o.issuesClosedByDay.read 5)) = .ok (6, some .nan) := by
  with_unfolding_all decide

/-- C3: the claim says a work item with no milestone-change system note
makes the aggregator signal MissingMilestoneAssignmentEvidence and not
crash on a null dereference.  On the code the failed search leaves
lastMilestoneChangeComment undefined and reading its notes throws a
TypeError - precisely the undefined-dereference crash - which is what
propagates to the caller. -/
theorem c3_crash_counterexample :
    errOf (generateBurndownChart sprintMilestone [noMilestoneIssue] {}) = some .typeError := by
  with_unfolding_all decide

/-- C5: the claim says a one-day window (start = due date) produces
idealBurndown = [totalEffort] with no division by zero.  On the code the
expression totalEffort - (totalEffort / (days - 1)) * i divides by zero
when days = 1: the run on an empty issue list has totalEffort = 0, yet
idealBurndown is [NaN], not [0]. -/
theorem c5_days_one_counterexample :
    daysOf oneDayMilestone = 1 ∧
    (generateBurndownChart oneDayMilestone [] {}).map
        (fun o => (o.totalEffort, o.idealBurndown.len, o.idealBurndown.read 0))
      = .ok (.num 0, 1, some .nan) := by
  with_unfolding_all decide

/-- C6: the claim says each ledger entry is folded at an index clamped to
at most days - 1.  On the code the index is only clamped below: a
spending note created inside the window whose body date is 2020-03-01
rounds to bucket 29 in the five-day window, and the write extends
effortSpentByDay to length 30 (slot 29 becomes NaN: undefined + amount). -/
theorem c6_unclamped_counterexample :
    daysOf sprintMilestone = 5 ∧
    (generateBurndownChart sprintMilestone [farLedgerIssue] {}).map
        (fun o => (o.effortSpentByDay.len, o.effortSpentByDay.read 29)) = .ok (30, some .nan) := by
  with_unfolding_all decide

/-- C9: the claim says duration extraction never raises an error for a
note accepted by the spending filter.  The body addedat 2020-02-25 is
accepted by the filter regex (added, empty dot-run, at, date) but has no
space-at separator, so the match for the duration group returns null and
reading its capture throws a TypeError out of getTimeSpent. -/
theorem c9_crash_counterexample :
    spendKeep 1580515200000 1583020800000
        ⟨"gus", [⟨"addedat 2020-02-25", true, 1582588800000, 0⟩]⟩ = .ok true ∧
    getTimeSpent crashBodyIssue 1580515200000 1583020800000 = .error .typeError := by
  with_unfolding_all decide

/-- Extraction of the ideal-burndown series from a successful run: it is
always the mapped array of the formula totalEffort - (totalEffort /
(days - 1)) * i. -/
theorem generate_ok_ideal (m : Milestone) (issues : List Issue) (opts : Options) (out : Output)
    (hok : generateBurndownChart m issues opts = .ok out) :
    out.idealBurndown = JSArray.ofFn (daysOf m).toNat (fun i =>
      jsSub out.totalEffort
        (jsMul (jsDiv out.totalEffort (.num (intQ (daysOf m) - 1))) (.num (natQ i)))) := by
  unfold generateBurndownChart at hok
  dsimp only at hok
  split at hok
  · exact absurd hok (by simp)
  · split at hok
    · exact absurd hok (by simp)
    · injection hok with h
      subst h
      rfl

/-- For every JavaScript number T, the day-0 value T - (T / 0) * 0 is
NaN: dividing by the zero of days - 1 gives an infinity (or NaN), and
multiplying it by i = 0 gives NaN. -/
theorem jsSub_mul_div_zero (T : JSN) :
    jsSub T (jsMul (jsDiv T (.num 0)) (.num 0)) = .nan := by
  cases T with
  | nan => rfl
  | inf p => rfl
  | num a =>
      by_cases h : a = 0 <;> simp [jsDiv, jsMul, jsSub, jsNeg, jsAdd, h]


/-- C5 amended: for days = 1 the division by zero does occur and the
single idealBurndown slot is NaN, not totalEffort (see the
counterexample); for days > 1 the claim's formula holds exactly:
idealBurndown[i] = totalEffort - (totalEffort / (days - 1)) * i whenever
totalEffort is a finite number. -/
theorem c5_ideal_burndown (m : Milestone) (issues : List Issue) (opts : Options) (out : Output)
    (hok : generateBurndownChart m issues opts = .ok out) :
    (daysOf m = 1 → out.idealBurndown.len = 1 ∧ out.idealBurndown.read 0 = some .nan) ∧
    (∀ t : ℚ, ∀ i : Nat, out.totalEffort = .num t → 1 < daysOf m → i < (daysOf m).toNat →
      out.idealBurndown.read i = some (.num (t - t / ((daysOf m : ℚ) - 1) * i))) := by
  have hid := generate_ok_ideal m issues opts out hok
  constructor
  · intro h1
    rw [hid, h1]
    refine ⟨rfl, ?_⟩
    rw [JSArray.ofFn_read _ (by norm_num)]
    have e1 : intQ 1 - 1 = 0 := by rw [intQ_eq]; norm_num
    have e2 : natQ 0 = 0 := by rw [natQ_eq]; norm_num
    rw [e1, e2]
    exact congrArg some (jsSub_mul_div_zero out.totalEffort)
  · intro t i ht hgt hi
    rw [hid, JSArray.ofFn_read _ hi, ht]
    have hne : intQ (daysOf m) - 1 ≠ 0 := by
      rw [intQ_eq]
      have h2 : (1 : ℚ) < ((daysOf m : Int) : ℚ) := by exact_mod_cast hgt
      intro hc
      rw [sub_eq_zero] at hc
      rw [hc] at h2
      exact lt_irrefl 1 h2
    have hdiv : jsDiv (JSN.num t) (.num (intQ (daysOf m) - 1))
        = .num (t / (intQ (daysOf m) - 1)) := by
      simp [jsDiv, hne]
    have hmul : jsMul (JSN.num (t / (intQ (daysOf m) - 1))) (.num (natQ i))
        = .num (t / (intQ (daysOf m) - 1) * natQ i) := rfl
    have hsub : jsSub (JSN.num t) (.num (t / (intQ (daysOf m) - 1) * natQ i))
        = .num (t - t / (intQ (daysOf m) - 1) * natQ i) := by
      simp [jsSub, jsAdd, jsNeg, sub_eq_add_neg]
    rw [hdiv, hmul, hsub, intQ_eq, natQ_eq]


/-- The output of the one-day run used by the C5 witness. -/
def c5outOne : Output := (generateBurndownChart oneDayMilestone [] {}).toOption.getD emptyOutput

/-- The output of the five-day empty run used by the C5 witness. -/
def c5outFive : Output := (generateBurndownChart sprintMilestone [] {}).toOption.getD emptyOutput

/-- C5 witness: the one-day window run yields idealBurndown = [NaN], and
the five-day empty run satisfies the days > 1 formula at i = 1. -/
theorem c5_ideal_burndown_witness :
    generateBurndownChart oneDayMilestone [] {} = .ok c5outOne ∧
    daysOf oneDayMilestone = 1 ∧
    (c5outOne.idealBurndown.len = 1 ∧ c5outOne.idealBurndown.read 0 = some JSN.nan) ∧
    generateBurndownChart sprintMilestone [] {} = .ok c5outFive ∧
    c5outFive.totalEffort = JSN.num 0 ∧ 1 < daysOf sprintMilestone ∧
    1 < (daysOf sprintMilestone).toNat ∧
    c5outFive.idealBurndown.read 1 = some (.num (0 - 0 / ((daysOf sprintMilestone : ℚ) - 1) * 1)) :=
  ⟨by with_unfolding_all rfl, by with_unfolding_all decide,
   (c5_ideal_burndown oneDayMilestone [] {} c5outOne (by with_unfolding_all rfl)).1
     (by with_unfolding_all decide),
   by with_unfolding_all rfl, by with_unfolding_all decide, by with_unfolding_all decide,
   by with_unfolding_all decide,
   (c5_ideal_burndown sprintMilestone [] {} c5outFive (by with_unfolding_all rfl)).2 0 1
     (by with_unfolding_all decide) (by with_unfolding_all decide) (by with_unfolding_all decide)⟩

/-- C6 amended: each ledger entry with a valid date key is folded into
effortSpentByDay at index max(0, round((date - windowStart) / 1 day)) -
clamped below at 0 only, never clamped above.  The index stays at most
days - 1, and the series keeps its length, exactly when every entry's
bucket index is below days (as for ledger days inside the window); a
later date extends the series past days (see the counterexample). -/
theorem c6_ledger_clamp (s : Int) (entries : List (Option Int × ℚ)) (a : JSArray) (n : Nat)
    (hlen : a.len = n)
    (hb : ∀ p ∈ entries, entryIdxLt s n p = true) :
    (foldLedgerDays s entries a).len = n :=
  foldLedgerDays_len s entries a n hlen hb

/-- C6 witness: a single ledger entry dated 2020-02-03 in the five-day
window starting 2020-02-01 is bucketed at index 2 and the series keeps
length 5. -/
theorem c6_ledger_clamp_witness :
    (JSArray.filled 5 (.num 0)).len = 5 ∧
    (∀ p ∈ [((some 1580688000000 : Option Int), (1 : ℚ))], entryIdxLt 1580515200000 5 p = true) ∧
    (foldLedgerDays 1580515200000 [(some 1580688000000, 1)] (JSArray.filled 5 (.num 0))).len = 5 :=
  ⟨rfl, by with_unfolding_all decide,
   c6_ledger_clamp 1580515200000 [(some 1580688000000, 1)] (JSArray.filled 5 (.num 0)) 5 rfl
     (by with_unfolding_all decide)⟩

/-- C2 amended: in the per-item step of the aggregator, for an item whose
milestone-change comment is found and whose entry day is inside the
window, with a defined non-negative exit day e, issuesClosedByDay is
incremented at e exactly when e is at most days (not days - 1): the
resulting closed series is the old one with slot e incremented precisely
when e is at most days, and untouched otherwise.  At e = days the write
is one past the end and extends the series (see the counterexample). -/
theorem c2_closed_increment (cfg : Config) (st : LoopState) (issue : Issue)
    (sorted : List Comment) (found : Comment) (firstNote : Note) (t e : Int)
    (ts0 est effort : TimeSpent)
    (h189 : getTimeSpent issue cfg.startDate cfg.dueDate = .ok ts0)
    (hsort : sortDiscussion issue.discussion = .ok sorted)
    (hfind : findMilestoneComment cfg.m sorted = some found)
    (hhead : found.notes.head? = some firstNote)
    (hadd : max 0 (jsRound (intQ (firstNote.updatedAt - cfg.startDate) / intQ MILLISECONDS_IN_DAY)) < cfg.days)
    (hcl : issue.closedAt = some t)
    (he : jsRound (intQ (t - cfg.startDate) / intQ MILLISECONDS_IN_DAY) = e)
    (he0 : 0 ≤ e)
    (hest : cfg.getEffortEstimate { issue with discussion := sorted } = .ok est)
    (heff : cfg.getEffort { issue with discussion := sorted } = .ok effort) :
    (processIssue cfg st issue).map LoopState.closed
      = .ok (if e ≤ cfg.days then st.closed.addAt e.toNat (.num 1) else st.closed) := by
  rw [hcl] at hest heff
  unfold processIssue
  rw [h189]
  dsimp only
  rw [hsort]
  dsimp only
  rw [hfind]
  dsimp only
  rw [hhead]
  dsimp only
  rw [hcl]
  dsimp only [Option.map]
  rw [he]
  rw [if_neg (not_le.mpr hadd)]
  have hneg : decide (e < 0) = false := decide_eq_false (not_lt.mpr he0)
  rw [hneg]
  rw [if_neg (show ¬(false = true) by simp)]
  rw [hest]
  dsimp only
  by_cases hle : e ≤ cfg.days
  · have hwc : decide (e ≤ cfg.days) = true := decide_eq_true hle
    simp only [hwc, Option.isNone, Bool.true_or, if_pos]
    rw [heff]
    dsimp only
    rw [if_pos hle]
    rfl
  · have hwc : decide (e ≤ cfg.days) = false := decide_eq_false hle
    simp only [hwc, Option.isNone, Bool.false_or, Bool.false_and, if_neg]
    rw [if_neg hle]
    rfl


/-- Loop configuration of the default-option run on the sprint window,
used by the C2 witness. -/
def c2cfg : Config := configOf sprintMilestone {}

/-- The freshly allocated five-day loop state, used by the C2 witness. -/
def c2st : LoopState :=
  ⟨JSArray.filled 5 (.num 0), JSArray.filled 5 (.num 0),
   JSArray.filled 5 (.num 0), JSArray.filled 5 (.num 0)⟩

/-- C2 witness: the item closed one day past the window (exit day 5 =
days) satisfies every hypothesis, and its increment does happen. -/
theorem c2_closed_increment_witness :
    getTimeSpent lateClosedIssue c2cfg.startDate c2cfg.dueDate = .ok ⟨0, [], []⟩ ∧
    sortDiscussion lateClosedIssue.discussion = .ok [msChangeComment] ∧
    findMilestoneComment c2cfg.m [msChangeComment] = some msChangeComment ∧
    msChangeComment.notes.head?
      = some ⟨"changed milestone to %\"Sprint 1\"", true, 1580515200000, 1580515200000⟩ ∧
    max 0 (jsRound (intQ ((1580515200000 : Int) - c2cfg.startDate) / intQ MILLISECONDS_IN_DAY))
      < c2cfg.days ∧
    lateClosedIssue.closedAt = some 1580947200000 ∧
    jsRound (intQ ((1580947200000 : Int) - c2cfg.startDate) / intQ MILLISECONDS_IN_DAY) = 5 ∧
    (0 : Int) ≤ 5 ∧
    c2cfg.getEffortEstimate { lateClosedIssue with discussion := [msChangeComment] }
      = .ok ⟨0 / natQ 60 / natQ 60, [], []⟩ ∧
    c2cfg.getEffort { lateClosedIssue with discussion := [msChangeComment] } = .ok ⟨0, [], []⟩ ∧
    (processIssue c2cfg c2st lateClosedIssue).map LoopState.closed
      = .ok (if (5 : Int) ≤ c2cfg.days then c2st.closed.addAt (5 : Int).toNat (.num 1)
             else c2st.closed) :=
  ⟨by with_unfolding_all decide, by with_unfolding_all rfl, by with_unfolding_all rfl,
   rfl, by with_unfolding_all decide, rfl, by with_unfolding_all decide, by norm_num,
   by with_unfolding_all rfl, by with_unfolding_all decide,
   c2_closed_increment c2cfg c2st lateClosedIssue [msChangeComment] msChangeComment
     ⟨"changed milestone to %\"Sprint 1\"", true, 1580515200000, 1580515200000⟩
     1580947200000 5 ⟨0, [], []⟩ ⟨0 / natQ 60 / natQ 60, [], []⟩ ⟨0, [], []⟩
     (by with_unfolding_all decide) (by with_unfolding_all rfl) (by with_unfolding_all rfl)
     rfl (by with_unfolding_all decide) rfl (by with_unfolding_all decide) (by norm_num)
     (by with_unfolding_all rfl) (by with_unfolding_all decide)⟩

/-- The leftmost scan for at-space-date succeeds whenever some suffix of
the string carries the pattern. -/
theorem findDateMatch_isSome (s : List Char) (i : Nat)
    (hpre : ([ 'a', 't', ' ' ] : List Char).isPrefixOf (s.drop i) = true)
    (hshape : dateShape (((s.drop i).drop 3).take 10) = true) :
    (findDateMatch s).isSome = true := by
  induction s generalizing i with
  | nil =>
      rw [List.drop_nil] at hpre
      simp [List.isPrefixOf] at hpre
  | cons x xs ih =>
      cases i with
      | zero =>
          rw [List.drop_zero] at hpre hshape
          unfold findDateMatch
          rw [if_pos (by rw [hpre, hshape]; rfl)]
          rfl
      | succ j =>
          rw [List.drop_succ_cons] at hpre hshape
          unfold findDateMatch
          split
          · rfl
          · exact ih j hpre hshape


/-- A body accepted by the spending filter carries the at-space-date
pattern in its last thirteen characters. -/
theorem isSpendingBody_parts (s : List Char) (h : isSpendingBody s = true) :
    ([ 'a', 't', ' ' ] : List Char).isPrefixOf (s.drop (s.length - 13)) = true ∧
    dateShape (((s.drop (s.length - 13)).drop 3).take 10) = true := by
  unfold isSpendingBody at h
  simp only [Bool.and_eq_true, decide_eq_true_eq] at h
  obtain ⟨⟨⟨hlen, hadded⟩, hpre, hshape⟩, hnl⟩ := h
  refine ⟨hpre, ?_⟩
  have h13 : (s.drop (s.length - 13)).length = 13 := by
    rw [List.length_drop]
    omega
  have h10 : ((s.drop (s.length - 13)).drop 3).length = 10 := by
    rw [List.length_drop, h13]
  rw [List.take_of_length_le (by rw [h10])]
  exact hshape

/-- C9 amended: for a note accepted by the spending filter whose body
also matches the duration-group regex (it contains a space-at after
added-space), extraction completes without error, each absent
day/hour/minute sub-pattern contributes zero (the getD 0 fallbacks), and
totalHours = days * 8 + hours + minutes / 60.  A filter-accepted body
with no space-at separator instead crashes extraction with a TypeError
(see the counterexample). -/
theorem c9_permissive (c : Comment) (note : Note) (g : List Char)
    (hhead : c.notes.head? = some note)
    (hspend : isSpendingBody note.body.data = true)
    (hg : matchAddedGroup note.body.data = some g) :
    (mkSpending c).map (fun sp => (sp.days, sp.hours, sp.minutes, sp.totalHours))
      = .ok (((findNumSuffix 'd' g).map digitsToNat).getD 0,
             ((findNumSuffix 'h' g).map digitsToNat).getD 0,
             ((findNumSuffix 'm' g).map digitsToNat).getD 0,
             natQ (((findNumSuffix 'd' g).map digitsToNat).getD 0) * natQ 8
               + natQ (((findNumSuffix 'h' g).map digitsToNat).getD 0)
               + natQ (((findNumSuffix 'm' g).map digitsToNat).getD 0) / natQ 60) := by
  obtain ⟨hpre, hshape⟩ := isSpendingBody_parts note.body.data hspend
  obtain ⟨d10, hdate⟩ := Option.isSome_iff_exists.mp
    (findDateMatch_isSome note.body.data (note.body.data.length - 13) hpre hshape)
  rw [mkSpending_eq c note g d10 (dateStrToMs d10) _ _ _ hhead hg rfl rfl rfl hdate rfl]
  rfl


/-- Note used by the C9 witness: hours present, days and minutes absent. -/
def c9note : Note := ⟨"added 5h of time spent at 2020-02-25", true, 0, 0⟩

/-- Comment wrapping the C9 witness note. -/
def c9comment : Comment := ⟨"heidi", [c9note]⟩

/-- C9 witness: the body added 5h of time spent at 2020-02-25 is
accepted, matches the group regex, and parses to 0 days, 5 hours, 0
minutes without error. -/
theorem c9_permissive_witness :
    c9comment.notes.head? = some c9note ∧
    isSpendingBody c9note.body.data = true ∧
    matchAddedGroup c9note.body.data = some ("5h of time spent" : String).data ∧
    (mkSpending c9comment).map (fun sp => (sp.days, sp.hours, sp.minutes, sp.totalHours))
      = .ok (((findNumSuffix 'd' ("5h of time spent" : String).data).map digitsToNat).getD 0,
             ((findNumSuffix 'h' ("5h of time spent" : String).data).map digitsToNat).getD 0,
             ((findNumSuffix 'm' ("5h of time spent" : String).data).map digitsToNat).getD 0,
             natQ (((findNumSuffix 'd' ("5h of time spent" : String).data).map digitsToNat).getD 0) * natQ 8
               + natQ (((findNumSuffix 'h' ("5h of time spent" : String).data).map digitsToNat).getD 0)
               + natQ (((findNumSuffix 'm' ("5h of time spent" : String).data).map digitsToNat).getD 0) / natQ 60) :=
  ⟨rfl, by with_unfolding_all decide, by with_unfolding_all decide,
   c9_permissive c9comment c9note ("5h of time spent" : String).data rfl
     (by with_unfolding_all decide) (by with_unfolding_all decide)⟩

/-- The filter callback only ever throws a TypeError. -/
theorem spendKeep_error (s e : Int) (c : Comment) (err : JSError)
    (h : spendKeep s e c = .error err) : err = .typeError := by
  unfold spendKeep at h
  split at h
  · injection h with h
    exact h.symm
  · cases h

/-- The discussion filter only ever throws a TypeError. -/
theorem spendFilter_error (s e : Int) (l : List Comment) (err : JSError)
    (h : spendFilter s e l = .error err) : err = .typeError := by
  induction l with
  | nil => cases h
  | cons c cs ih =>
      unfold spendFilter at h
      split at h
      · injection h with h
        subst h
        next heq => exact spendKeep_error s e c _ heq
      · split at h
        · injection h with h
          subst h
          next heq => exact ih heq
        · cases h

/-- The spending parser only ever throws a TypeError. -/
theorem mkSpending_error (c : Comment) (err : JSError)
    (h : mkSpending c = .error err) : err = .typeError := by
  unfold mkSpending at h
  split at h
  · injection h with h
    exact h.symm
  · dsimp only at h
    split at h
    · injection h with h
      exact h.symm
    · split at h
      · injection h with h
        exact h.symm
      · cases h

/-- The spending map step only ever throws a TypeError. -/
theorem mapSpendings_error (l : List Comment) (err : JSError)
    (h : mapSpendings l = .error err) : err = .typeError := by
  induction l with
  | nil => cases h
  | cons c cs ih =>
      unfold mapSpendings at h
      split at h
      · injection h with h
        subst h
        next heq => exact mkSpending_error c _ heq
      · split at h
        · injection h with h
          subst h
          next heq => exact ih heq
        · cases h

/-- getTimeSpent only ever throws a TypeError. -/
theorem getTimeSpent_error (issue : Issue) (s e : Int) (err : JSError)
    (h : getTimeSpent issue s e = .error err) : err = .typeError := by
  unfold getTimeSpent at h
  split at h
  · injection h with h
    subst h
    next heq => exact spendFilter_error s e issue.discussion _ heq
  · split at h
    · injection h with h
      subst h
      next heq => exact mapSpendings_error _ _ heq
    · cases h

/-- The discussion sort only ever throws a TypeError. -/
theorem sortDiscussion_error (l : List Comment) (err : JSError)
    (h : sortDiscussion l = .error err) : err = .typeError := by
  unfold sortDiscussion at h
  split at h
  · cases h
  · split at h
    · cases h
    · injection h with h
      exact h.symm


/-- Members after a stable insertion come from the inserted element or
the original list. -/
theorem mem_insertDescByKey (c x : Comment) (l : List Comment)
    (h : x ∈ insertDescByKey c l) : x = c ∨ x ∈ l := by
  induction l with
  | nil =>
      unfold insertDescByKey at h
      rcases List.mem_singleton.mp h with h
      exact Or.inl h
  | cons y ys ih =>
      unfold insertDescByKey at h
      split at h
      · rcases List.mem_cons.mp h with h | h
        · exact Or.inr (List.mem_cons.mpr (Or.inl h))
        · rcases ih h with h | h
          · exact Or.inl h
          · exact Or.inr (List.mem_cons.mpr (Or.inr h))
      · rcases List.mem_cons.mp h with h | h
        · exact Or.inl h
        · exact Or.inr h

/-- Members of the insertion-sort fold come from the accumulator or the
list. -/
theorem mem_foldl_insert (x : Comment) (l : List Comment) :
    ∀ acc, x ∈ l.foldl (fun acc c => insertDescByKey c acc) acc → x ∈ acc ∨ x ∈ l := by
  induction l with
  | nil =>
      intro acc ha
      exact Or.inl ha
  | cons y ys ih =>
      intro acc ha
      rcases ih (insertDescByKey y acc) ha with hi | hi
      · rcases mem_insertDescByKey y x acc hi with he | he
        · exact Or.inr (List.mem_cons.mpr (Or.inl he))
        · exact Or.inl he
      · exact Or.inr (List.mem_cons.mpr (Or.inr hi))

/-- The sorted discussion holds no comments beyond the original ones. -/
theorem mem_sortDescByKey (x : Comment) (l : List Comment)
    (h : x ∈ sortDescByKey l) : x ∈ l := by
  unfold sortDescByKey at h
  rcases mem_foldl_insert x l [] h with hn | hm
  · cases hn
  · exact hm

/-- A member of a successfully sorted discussion is a member of the
original discussion. -/
theorem sortDiscussion_mem (l sorted : List Comment) (x : Comment)
    (h : sortDiscussion l = .ok sorted) (hx : x ∈ sorted) : x ∈ l := by
  unfold sortDiscussion at h
  split at h
  · injection h with h
    subst h
    exact hx
  · split at h
    · injection h with h
      subst h
      exact mem_sortDescByKey x l hx
    · cases h


/-- An issue whose discussion holds no milestone-change system note makes
the per-item step throw a TypeError: the failed search is dereferenced. -/
theorem processIssue_no_milestone (cfg : Config) (st : LoopState) (issue : Issue)
    (hbad : ∀ c ∈ issue.discussion, ∀ note ∈ c.notes, isMilestoneChangeNote cfg.m note = false) :
    processIssue cfg st issue = .error .typeError := by
  unfold processIssue
  cases h189 : getTimeSpent issue cfg.startDate cfg.dueDate with
  | error e =>
      have he := getTimeSpent_error issue cfg.startDate cfg.dueDate e h189
      subst he
      rfl
  | ok ts =>
      cases hsort : sortDiscussion issue.discussion with
      | error e =>
          have he := sortDiscussion_error issue.discussion e hsort
          subst he
          rfl
      | ok sorted =>
          dsimp only
          have hfind : findMilestoneComment cfg.m sorted = none := by
            unfold findMilestoneComment
            rw [List.find?_eq_none]
            intro c hc hany
            simp only [List.any_eq_true] at hany
            obtain ⟨note, hn, hm⟩ := hany
            rw [hbad c (sortDiscussion_mem issue.discussion sorted c hsort hc) note hn] at hm
            cases hm
          rw [hfind]

/-- With the default effort callbacks, the per-item step only ever throws
a TypeError. -/
theorem processIssue_error (m : Milestone) (opts : Options) (st : LoopState) (issue : Issue)
    (err : JSError)
    (hge : opts.getEffort = none) (hgee : opts.getEffortEstimate = none)
    (h : processIssue (configOf m opts) st issue = .error err) : err = .typeError := by
  unfold processIssue at h
  split at h
  · injection h with h
    subst h
    next heq => exact getTimeSpent_error _ _ _ _ heq
  · split at h
    · injection h with h
      subst h
      next heq => exact sortDiscussion_error _ _ heq
    · split at h
      · injection h with h
        exact h.symm
      · split at h
        · injection h with h
          exact h.symm
        · dsimp only at h
          split at h
          · cases h
          · split at h
            · cases h
            · split at h
              · next heq =>
                  rw [show (configOf m opts).getEffortEstimate = effectiveGetEstimate opts from rfl] at heq
                  unfold effectiveGetEstimate at heq
                  rw [hgee] at heq
                  cases heq
              · split at h
                · split at h
                  · injection h with h
                    subst h
                    next heq =>
                      rw [show (configOf m opts).getEffort = effectiveGetEffort m opts from rfl] at heq
                      unfold effectiveGetEffort at heq
                      rw [hge] at heq
                      exact getTimeSpent_error _ _ _ _ heq
                  · cases h
                · cases h

/-- The issue loop throws a TypeError when some issue lacks a
milestone-change note (whether that issue or an earlier one throws). -/
theorem foldIssues_bad (m : Milestone) (opts : Options) (issues : List Issue) (issue : Issue)
    (hge : opts.getEffort = none) (hgee : opts.getEffortEstimate = none)
    (hmem : issue ∈ issues)
    (hbad : ∀ c ∈ issue.discussion, ∀ note ∈ c.notes, isMilestoneChangeNote m note = false) :
    ∀ st, foldIssues (configOf m opts) st issues = .error .typeError := by
  induction issues with
  | nil => cases hmem
  | cons i rest ih =>
      intro st
      unfold foldIssues
      rcases List.mem_cons.mp hmem with heq | hmem'
      · subst heq
        rw [processIssue_no_milestone (configOf m opts) st issue hbad]
      · cases hp : processIssue (configOf m opts) st i with
        | error e =>
            have he := processIssue_error m opts st i e hge hgee hp
            subst he
            rfl
        | ok st' =>
            exact ih hmem' st'

/-- C3 amended: with the default effort callbacks and a valid array
length, a run over issues among which one has no milestone-change system
note fails with a TypeError - the crash of dereferencing the undefined
search result - which propagates to the immediate caller; no output
series are produced, and no dedicated MissingMilestoneAssignmentEvidence
error exists in the code. -/
theorem c3_missing_note (m : Milestone) (issues : List Issue) (opts : Options) (issue : Issue)
    (hmem : issue ∈ issues)
    (hge : opts.getEffort = none) (hgee : opts.getEffortEstimate = none)
    (hdays : ¬(daysOf m < 0 ∨ 4294967296 ≤ daysOf m))
    (hbad : ∀ c ∈ issue.discussion, ∀ note ∈ c.notes, isMilestoneChangeNote m note = false) :
    generateBurndownChart m issues opts = .error .typeError := by
  unfold generateBurndownChart
  dsimp only
  rw [if_neg hdays]
  rw [foldIssues_bad m opts issues issue hge hgee hmem hbad _]


/-- C3 witness: the run on the sprint window with the single issue whose
only note is the plain text hello fails with a TypeError. -/
theorem c3_missing_note_witness :
    noMilestoneIssue ∈ [noMilestoneIssue] ∧
    (Options.getEffort {}) = none ∧
    (Options.getEffortEstimate {}) = none ∧
    ¬(daysOf sprintMilestone < 0 ∨ 4294967296 ≤ daysOf sprintMilestone) ∧
    (∀ c ∈ noMilestoneIssue.discussion, ∀ note ∈ c.notes,
      isMilestoneChangeNote sprintMilestone note = false) ∧
    generateBurndownChart sprintMilestone [noMilestoneIssue] {} = .error .typeError :=
  ⟨List.mem_cons_self _ _, rfl, rfl, by with_unfolding_all decide, by with_unfolding_all decide,
   c3_missing_note sprintMilestone [noMilestoneIssue] {} noMilestoneIssue
     (List.mem_cons_self _ _) rfl rfl (by with_unfolding_all decide)
     (by with_unfolding_all decide)⟩

/-- C7: a work item whose single discussion note is the system note
added 1d 2h 30m of time spent at 2020-02-25, created inside the window,
yields the ledger with totalHours = 1 * 8 + 2 + 30 / 60 = 10.5 (one day
counts as eight hours) attributed to 2020-02-25 (UTC midnight timestamp
1582588800000). -/
theorem c7_duration_parsing (author : String) (cl : Option Int) (tts : ℚ) (lb : List String)
    (c u start endd : Int) (h1 : start ≤ c) (h2 : c ≤ endd) :
    getTimeSpent
        ⟨cl, tts, lb, [⟨author, [⟨"added 1d 2h 30m of time spent at 2020-02-25", true, c, u⟩]⟩]⟩
        start endd
      = .ok ⟨21 / 2, [(some 1582588800000, 21 / 2)], []⟩ := by
  have hb : isSpendingBody ("added 1d 2h 30m of time spent at 2020-02-25" : String).data = true := by
    with_unfolding_all decide
  have hk : spendKeep start endd
      ⟨author, [⟨"added 1d 2h 30m of time spent at 2020-02-25", true, c, u⟩]⟩ = .ok true := by
    unfold spendKeep
    dsimp only [List.head?]
    rw [hb, decide_eq_true h1, decide_eq_true h2]
    rfl
  have hg : matchAddedGroup ("added 1d 2h 30m of time spent at 2020-02-25" : String).data
      = some ("1d 2h 30m of time spent" : String).data := by with_unfolding_all decide
  have hdate : findDateMatch ("added 1d 2h 30m of time spent at 2020-02-25" : String).data
      = some ("2020-02-25" : String).data := by with_unfolding_all decide
  have hsp : mkSpending ⟨author, [⟨"added 1d 2h 30m of time spent at 2020-02-25", true, c, u⟩]⟩
      = .ok ⟨author, some 1582588800000, 1, 2, 30,
             natQ 1 * natQ 8 + natQ 2 + natQ 30 / natQ 60⟩ :=
    mkSpending_eq _ _ "1d 2h 30m of time spent".data "2020-02-25".data _ 1 2 30 rfl
      hg (by with_unfolding_all decide) (by with_unfolding_all decide)
      (by with_unfolding_all decide) hdate date_20200225
  rw [getTimeSpent_eq _ start endd
    [⟨author, [⟨"added 1d 2h 30m of time spent at 2020-02-25", true, c, u⟩]⟩] _
    (spendFilter_cons_true _ _ _ _ _ hk (spendFilter_nil _ _))
    (mapSpendings_cons _ _ _ _ hsp mapSpendings_nil)]
  refine congrArg Except.ok ?_
  unfold accumDays
  simp [objSet, objGet, natQ]
  norm_num [Rat.mkRat_one]


/-- C7 witness: the note created at the 2020-02-25 timestamp inside the
February window parses to the 10.5-hour ledger. -/
theorem c7_duration_parsing_witness :
    (1580515200000 : Int) ≤ 1582588800000 ∧ (1582588800000 : Int) ≤ 1583020800000 ∧
    getTimeSpent
        ⟨none, 0, [],
         [⟨"ivan", [⟨"added 1d 2h 30m of time spent at 2020-02-25", true, 1582588800000, 0⟩]⟩]⟩
        1580515200000 1583020800000
      = .ok ⟨21 / 2, [(some 1582588800000, 21 / 2)], []⟩ :=
  ⟨by norm_num, by norm_num,
   c7_duration_parsing "ivan" none 0 [] 1582588800000 0 1580515200000 1583020800000
     (by norm_num) (by norm_num)⟩

theorem processIssue_len (cfg : Config) (st st' : LoopState) (issue : Issue) (n : Nat)
    (hn : cfg.days.toNat = n)
    (ho : st.opened.len = n) (hc : st.closed.len = n) (hs : st.spent.len = n)
    (he : st.estimated.len = n)
    (hexit : ∀ t, issue.closedAt = some t →
      jsRound (intQ (t - cfg.startDate) / intQ MILLISECONDS_IN_DAY) ≤ cfg.days - 1)
    (hledger : ∀ sorted, sortDiscussion issue.discussion = .ok sorted →
      ∀ ts, cfg.getEffort { issue with discussion := sorted } = .ok ts →
        ∀ p ∈ ts.days, entryIdxLt cfg.startDate n p = true)
    (hok : processIssue cfg st issue = .ok st') :
    st'.opened.len = n ∧ st'.closed.len = n ∧ st'.spent.len = n ∧ st'.estimated.len = n := by
  unfold processIssue at hok
  split at hok
  · cases hok
  next ts hts =>
  split at hok
  · cases hok
  next sorted hsort =>
  split at hok
  · cases hok
  next found hfind =>
  split at hok
  · cases hok
  next firstNote hhead =>
  dsimp only at hok
  split at hok
  · injection hok with hok
    subst hok
    exact ⟨ho, hc, hs, he⟩
  next hadd =>
  have hdlt : (max 0 (jsRound (intQ (firstNote.updatedAt - cfg.startDate)
      / intQ MILLISECONDS_IN_DAY))).toNat < n := by
    rw [not_le] at hadd
    omega
  cases hclo : issue.closedAt with
  | some t =>
      rw [hclo] at hok
      dsimp only [Option.map] at hok
      have hrle := hexit t hclo
      split at hok
      · injection hok with hok
        subst hok
        exact ⟨ho, hc, hs, he⟩
      next hneg =>
      have hr0 : 0 ≤ jsRound (intQ (t - cfg.startDate) / intQ MILLISECONDS_IN_DAY) := by
        simp only [decide_eq_true_eq] at hneg
        omega
      have hrt : (jsRound (intQ (t - cfg.startDate) / intQ MILLISECONDS_IN_DAY)).toNat < n := by
        rw [not_le] at hadd
        omega
      split at hok
      · cases hok
      next est hest =>
      have hwc : decide (jsRound (intQ (t - cfg.startDate) / intQ MILLISECONDS_IN_DAY)
          ≤ cfg.days) = true := decide_eq_true (by omega)
      split at hok
      · next hcond =>
        split at hok
        · cases hok
        · next effort heff =>
          rw [← hclo] at heff
          injection hok with hok
          subst hok
          have hfold : (foldLedgerDays cfg.startDate effort.days st.spent).len = n :=
            foldLedgerDays_len _ _ _ n hs (hledger sorted hsort effort heff)
          refine ⟨?_, ?_, ?_, ?_⟩
          · exact (JSArray.addAt_len_of_lt _ (by rw [ho]; exact hdlt)).trans ho
          · exact (JSArray.addAt_len_of_lt _ (by rw [hc]; exact hrt)).trans hc
          · split
            · exact (JSArray.addAt_len_of_lt _ (by rw [hfold]; exact hrt)).trans hfold
            · exact hfold
          · exact (JSArray.addAt_len_of_lt _ (by rw [he]; exact hdlt)).trans he
      · next hcond =>
        rw [hwc] at hcond
        simp at hcond
  | none =>
      rw [hclo] at hok
      dsimp only [Option.map] at hok
      rw [if_neg Bool.false_ne_true] at hok
      split at hok
      · cases hok
      next est hest =>
      rw [if_neg Bool.false_ne_true] at hok
      split at hok
      · next hinc =>
        split at hok
        · cases hok
        · next effort heff =>
          rw [← hclo] at heff
          injection hok with hok
          subst hok
          have hfold : (foldLedgerDays cfg.startDate effort.days st.spent).len = n :=
            foldLedgerDays_len _ _ _ n hs (hledger sorted hsort effort heff)
          refine ⟨?_, ?_, ?_, ?_⟩
          · exact (JSArray.addAt_len_of_lt _ (by rw [ho]; exact hdlt)).trans ho
          · exact hc
          · split
            · exact (JSArray.addJunk_len _).trans hfold
            · exact hfold
          · exact (JSArray.addAt_len_of_lt _ (by rw [he]; exact hdlt)).trans he
      · next hinc =>
        injection hok with hok
        subst hok
        exact ⟨(JSArray.addAt_len_of_lt _ (by rw [ho]; exact hdlt)).trans ho, hc, hs,
          (JSArray.addAt_len_of_lt _ (by rw [he]; exact hdlt)).trans he⟩

/-- Reading exitInWindow: when the issue has a close timestamp, its exit
day is at most days - 1. -/
theorem exitInWindow_spec (m : Milestone) (issue : Issue)
    (h : exitInWindow m issue = true) (t : Int) (hclo : issue.closedAt = some t) :
    jsRound (intQ (t - m.startDate) / intQ MILLISECONDS_IN_DAY) ≤ daysOf m - 1 := by
  unfold exitInWindow exitDayOf at h
  rw [hclo] at h
  simp only [Option.map] at h
  exact of_decide_eq_true h

/-- Reading ledgerInWindow: every ledger entry the effort callback returns
on the sorted discussion is bucketed below days. -/
theorem ledgerInWindow_spec (m : Milestone) (getEff : Issue → Except JSError TimeSpent)
    (issue : Issue) (h : ledgerInWindow m getEff issue = true)
    (sorted : List Comment) (hsort : sortDiscussion issue.discussion = .ok sorted)
    (ts : TimeSpent) (hts : getEff { issue with discussion := sorted } = .ok ts) :
    ∀ p ∈ ts.days, entryIdxLt m.startDate (daysOf m).toNat p = true := by
  unfold ledgerInWindow at h
  rw [hsort] at h
  dsimp only at h
  rw [hts] at h
  simp only [List.all_eq_true] at h
  exact h

/-- The issue loop preserves the four per-day array lengths when every
issue's exit day stays in the window and every ledger entry is bucketed
below the length. -/
theorem foldIssues_len (cfg : Config) (issues : List Issue) (st st' : LoopState) (n : Nat)
    (hn : cfg.days.toNat = n)
    (ho : st.opened.len = n) (hc : st.closed.len = n) (hs : st.spent.len = n)
    (he : st.estimated.len = n)
    (hexit : ∀ issue ∈ issues, ∀ t, issue.closedAt = some t →
      jsRound (intQ (t - cfg.startDate) / intQ MILLISECONDS_IN_DAY) ≤ cfg.days - 1)
    (hledger : ∀ issue ∈ issues, ∀ sorted, sortDiscussion issue.discussion = .ok sorted →
      ∀ ts, cfg.getEffort { issue with discussion := sorted } = .ok ts →
        ∀ p ∈ ts.days, entryIdxLt cfg.startDate n p = true)
    (hok : foldIssues cfg st issues = .ok st') :
    st'.opened.len = n ∧ st'.closed.len = n ∧ st'.spent.len = n ∧ st'.estimated.len = n := by
  revert hexit hledger hok
  induction issues generalizing st with
  | nil =>
      intro hexit hledger hok
      rw [foldIssues] at hok
      injection hok with hok
      subst hok
      exact ⟨ho, hc, hs, he⟩
  | cons issue rest ih =>
      intro hexit hledger hok
      rw [foldIssues] at hok
      split at hok
      · cases hok
      next st₁ hst₁ =>
      obtain ⟨h1, h2, h3, h4⟩ := processIssue_len cfg st st₁ issue n hn ho hc hs he
        (hexit issue (List.mem_cons_self _ _)) (hledger issue (List.mem_cons_self _ _)) hst₁
      exact ih st₁ h1 h2 h3 h4
        (fun i hi => hexit i (List.mem_cons_of_mem _ hi))
        (fun i hi => hledger i (List.mem_cons_of_mem _ hi)) hok

/-- C1: on a run that returns without error, with every issue closed inside
the window and every spending ledger entry bucketed inside the window, all
nine output series have length days = ceil((dueDate - startDate)/1 day) + 1
(the label list included); the days count equals that formula. -/
theorem c1_series_lengths (m : Milestone) (issues : List Issue) (opts : Options) (out : Output)
    (hexit : ∀ issue ∈ issues, exitInWindow m issue = true)
    (hledger : ∀ issue ∈ issues, ledgerInWindow m (effectiveGetEffort m opts) issue = true)
    (hok : generateBurndownChart m issues opts = .ok out) :
    daysOf m = ⌈intQ (m.dueDate - m.startDate) / intQ MILLISECONDS_IN_DAY⌉ + 1 ∧
    out.issuesOpenedByDay.len = (daysOf m).toNat ∧
    out.issuesClosedByDay.len = (daysOf m).toNat ∧
    out.effortSpentByDay.len = (daysOf m).toNat ∧
    out.effortEstimatedByDay.len = (daysOf m).toNat ∧
    out.completedTasks.len = (daysOf m).toNat ∧
    out.remainingEffort.len = (daysOf m).toNat ∧
    out.idealBurndown.len = (daysOf m).toNat ∧
    out.remainingTasks.len = (daysOf m).toNat ∧
    out.labels.length = (daysOf m).toNat := by
  have hdays : daysOf m = ⌈intQ (m.dueDate - m.startDate) / intQ MILLISECONDS_IN_DAY⌉ + 1 := by
    unfold daysOf
    exact Int.ceil_add_one _
  unfold generateBurndownChart at hok
  dsimp only at hok
  split at hok
  · cases hok
  next hrange =>
  split at hok
  · cases hok
  next st hst =>
  obtain ⟨h1, h2, h3, h4⟩ := foldIssues_len (configOf m opts) issues _ st (daysOf m).toNat rfl
    (JSArray.filled_len _ _) (JSArray.filled_len _ _) (JSArray.filled_len _ _)
    (JSArray.filled_len _ _)
    (fun i hi t ht => exitInWindow_spec m i (hexit i hi) t ht)
    (fun i hi sorted hsort ts hts =>
      ledgerInWindow_spec m (effectiveGetEffort m opts) i (hledger i hi) sorted hsort ts hts)
    hst
  injection hok with hok
  subst hok
  refine ⟨hdays, h1, h2, h3, h4, h2, ?_, JSArray.ofFn_len _ _, JSArray.ofFn_len _ _, ?_⟩
  · cases hue : opts.useEstimate.getD false with
    | true =>
        simp only [eq_self_iff_true, if_true]
        exact JSArray.ofFn_len _ _
    | false =>
        simp only [if_neg Bool.false_ne_true]
        exact JSArray.ofFn_len _ _
  · simp

/-- C1, the length deviation: with an issue closed one day after the window
end the boundary write lands out of range, so issuesClosedByDay comes back
with length days + 1 = 6, not days = 5. -/
theorem c1_length_counterexample :
    daysOf sprintMilestone = 5 ∧
    (generateBurndownChart sprintMilestone [lateClosedIssue] {}).map
        (fun o => o.issuesClosedByDay.len) = .ok 6 := by
  with_unfolding_all decide

/-- The output of the run of the C1 witness. -/
def c1out : Output :=
  (generateBurndownChart sprintMilestone [] {}).toOption.getD emptyOutput

theorem c1_series_lengths_witness :
    daysOf sprintMilestone =
      ⌈intQ (sprintMilestone.dueDate - sprintMilestone.startDate) / intQ MILLISECONDS_IN_DAY⌉ + 1 ∧
    c1out.issuesOpenedByDay.len = (daysOf sprintMilestone).toNat ∧
    c1out.issuesClosedByDay.len = (daysOf sprintMilestone).toNat ∧
    c1out.effortSpentByDay.len = (daysOf sprintMilestone).toNat ∧
    c1out.effortEstimatedByDay.len = (daysOf sprintMilestone).toNat ∧
    c1out.completedTasks.len = (daysOf sprintMilestone).toNat ∧
    c1out.remainingEffort.len = (daysOf sprintMilestone).toNat ∧
    c1out.idealBurndown.len = (daysOf sprintMilestone).toNat ∧
    c1out.remainingTasks.len = (daysOf sprintMilestone).toNat ∧
    c1out.labels.length = (daysOf sprintMilestone).toNat :=
  c1_series_lengths sprintMilestone [] {} c1out
    (fun i hi => absurd hi (List.not_mem_nil i))
    (fun i hi => absurd hi (List.not_mem_nil i))
    (by with_unfolding_all rfl)

/-- One loop step is insensitive to includeOpen on the opened, closed and
estimated arrays: two runs of processIssue whose configurations differ only
in includeOpen, from states agreeing on those three arrays, agree on them
again whenever both return. -/
theorem processIssue_includeOpen (cfg : Config) (b₁ b₂ : Bool)
    (stA stB stA' stB' : LoopState) (issue : Issue)
    (hoo : stA.opened = stB.opened) (hcc : stA.closed = stB.closed)
    (hee : stA.estimated = stB.estimated)
    (hA : processIssue { cfg with includeOpen := b₁ } stA issue = .ok stA')
    (hB : processIssue { cfg with includeOpen := b₂ } stB issue = .ok stB') :
    stA'.opened = stB'.opened ∧ stA'.closed = stB'.closed ∧
    stA'.estimated = stB'.estimated := by
  unfold processIssue at hA hB
  dsimp only at hA hB
  cases hts : getTimeSpent issue cfg.startDate cfg.dueDate with
  | error e => rw [hts] at hA; cases hA
  | ok ts =>
  rw [hts] at hA hB
  dsimp only at hA hB
  cases hsort : sortDiscussion issue.discussion with
  | error e => rw [hsort] at hA; cases hA
  | ok sorted =>
  rw [hsort] at hA hB
  dsimp only at hA hB
  cases hfind : findMilestoneComment cfg.m sorted with
  | none => rw [hfind] at hA; cases hA
  | some found =>
  rw [hfind] at hA hB
  dsimp only at hA hB
  cases hhead : found.notes.head? with
  | none => rw [hhead] at hA; cases hA
  | some firstNote =>
  rw [hhead] at hA hB
  dsimp only at hA hB
  by_cases hg1 : cfg.days ≤
      max 0 (jsRound (intQ (firstNote.updatedAt - cfg.startDate) / intQ MILLISECONDS_IN_DAY))
  · rw [if_pos hg1] at hA hB
    injection hA with hA
    injection hB with hB
    subst hA
    subst hB
    exact ⟨hoo, hcc, hee⟩
  · rw [if_neg hg1] at hA hB
    cases hclo : issue.closedAt with
    | some t =>
        rw [hclo] at hA hB
        dsimp only [Option.map] at hA hB
        by_cases hg2 : decide (jsRound (intQ (t - cfg.startDate) / intQ MILLISECONDS_IN_DAY) < 0)
            = true
        · rw [if_pos hg2] at hA hB
          injection hA with hA
          injection hB with hB
          subst hA
          subst hB
          exact ⟨hoo, hcc, hee⟩
        · rw [if_neg hg2] at hA hB
          cases hest : cfg.getEffortEstimate
              ⟨some t, issue.totalTimeSpentSeconds, issue.labels, sorted⟩ with
          | error e => rw [hest] at hA; cases hA
          | ok est =>
          rw [hest] at hA hB
          dsimp only at hA hB
          simp only [Option.isNone_some, Bool.false_and, Bool.or_false] at hA hB
          by_cases hw : decide (jsRound (intQ (t - cfg.startDate) / intQ MILLISECONDS_IN_DAY)
              ≤ cfg.days) = true
          · simp only [if_pos hw] at hA hB
            cases heff : cfg.getEffort
                ⟨some t, issue.totalTimeSpentSeconds, issue.labels, sorted⟩ with
            | error e => rw [heff] at hA; cases hA
            | ok effort =>
            rw [heff] at hA hB
            dsimp only at hA hB
            injection hA with hA
            injection hB with hB
            subst hA
            subst hB
            exact ⟨by rw [hoo], by rw [hcc], by rw [hee]⟩
          · simp only [if_neg hw] at hA hB
            injection hA with hA
            injection hB with hB
            subst hA
            subst hB
            exact ⟨by rw [hoo], by rw [hcc], by rw [hee]⟩
    | none =>
        rw [hclo] at hA hB
        dsimp only [Option.map] at hA hB
        rw [if_neg Bool.false_ne_true] at hA hB
        cases hest : cfg.getEffortEstimate
            ⟨none, issue.totalTimeSpentSeconds, issue.labels, sorted⟩ with
        | error e => rw [hest] at hA; cases hA
        | ok est =>
        rw [hest] at hA hB
        dsimp only at hA hB
        simp only [if_neg Bool.false_ne_true, Option.isNone_none, Bool.false_or, Bool.true_and]
          at hA hB
        by_cases h1 : b₁ = true
        · rw [if_pos h1] at hA
          cases heff : cfg.getEffort
              ⟨none, issue.totalTimeSpentSeconds, issue.labels, sorted⟩ with
          | error e => rw [heff] at hA; cases hA
          | ok effort =>
          rw [heff] at hA
          dsimp only at hA
          injection hA with hA
          subst hA
          by_cases h2 : b₂ = true
          · rw [if_pos h2] at hB
            rw [heff] at hB
            dsimp only at hB
            injection hB with hB
            subst hB
            exact ⟨by rw [hoo], by rw [hcc], by rw [hee]⟩
          · rw [if_neg h2] at hB
            injection hB with hB
            subst hB
            exact ⟨by rw [hoo], by rw [hcc], by rw [hee]⟩
        · rw [if_neg h1] at hA
          injection hA with hA
          subst hA
          by_cases h2 : b₂ = true
          · rw [if_pos h2] at hB
            cases heff : cfg.getEffort
                ⟨none, issue.totalTimeSpentSeconds, issue.labels, sorted⟩ with
            | error e => rw [heff] at hB; cases hB
            | ok effort =>
            rw [heff] at hB
            dsimp only at hB
            injection hB with hB
            subst hB
            exact ⟨by rw [hoo], by rw [hcc], by rw [hee]⟩
          · rw [if_neg h2] at hB
            injection hB with hB
            subst hB
            exact ⟨by rw [hoo], by rw [hcc], by rw [hee]⟩

/-- The whole issue loop is insensitive to includeOpen on the opened,
closed and estimated arrays. -/
theorem foldIssues_includeOpen (cfg : Config) (b₁ b₂ : Bool) (issues : List Issue)
    (stA stB stA' stB' : LoopState)
    (hoo : stA.opened = stB.opened) (hcc : stA.closed = stB.closed)
    (hee : stA.estimated = stB.estimated)
    (hA : foldIssues { cfg with includeOpen := b₁ } stA issues = .ok stA')
    (hB : foldIssues { cfg with includeOpen := b₂ } stB issues = .ok stB') :
    stA'.opened = stB'.opened ∧ stA'.closed = stB'.closed ∧
    stA'.estimated = stB'.estimated := by
  induction issues generalizing stA stB with
  | nil =>
      rw [foldIssues] at hA hB
      injection hA with hA
      injection hB with hB
      subst hA
      subst hB
      exact ⟨hoo, hcc, hee⟩
  | cons issue rest ih =>
      rw [foldIssues] at hA hB
      split at hA
      · cases hA
      next stA₁ hstA₁ =>
      split at hB
      · cases hB
      next stB₁ hstB₁ =>
      obtain ⟨h1, h2, h3⟩ :=
        processIssue_includeOpen cfg b₁ b₂ stA stB stA₁ stB₁ issue hoo hcc hee hstA₁ hstB₁
      exact ih stA₁ stB₁ h1 h2 h3 hA hB

/-- C10: two runs of the aggregator on the same milestone, issues and
options, differing only in the includeOpen option, return the same
issuesOpenedByDay, issuesClosedByDay, effortEstimatedByDay, completedTasks
and remainingTasks whenever both return without error; includeOpen only
feeds the effort-spent side. -/
theorem c10_includeOpen_independence (m : Milestone) (issues : List Issue) (opts : Options)
    (b₁ b₂ : Bool) (outA outB : Output)
    (hA : generateBurndownChart m issues { opts with includeOpen := some b₁ } = .ok outA)
    (hB : generateBurndownChart m issues { opts with includeOpen := some b₂ } = .ok outB) :
    outA.issuesOpenedByDay = outB.issuesOpenedByDay ∧
    outA.issuesClosedByDay = outB.issuesClosedByDay ∧
    outA.effortEstimatedByDay = outB.effortEstimatedByDay ∧
    outA.completedTasks = outB.completedTasks ∧
    outA.remainingTasks = outB.remainingTasks := by
  unfold generateBurndownChart at hA hB
  dsimp only at hA hB
  split at hA
  · cases hA
  next hrange =>
  rw [if_neg hrange] at hB
  split at hA
  · cases hA
  next stA hstA =>
  split at hB
  · cases hB
  next stB hstB =>
  injection hA with hA
  injection hB with hB
  subst hA
  subst hB
  obtain ⟨ho, hc, he⟩ := foldIssues_includeOpen (configOf m opts) b₁ b₂ issues
    _ _ stA stB rfl rfl rfl hstA hstB
  exact ⟨ho, hc, he, hc, by rw [ho, hc]⟩

/-- The output of the includeOpen = true run of the C10 witness. -/
def c10outT : Output :=
  (generateBurndownChart sprintMilestone [] { includeOpen := some true }).toOption.getD emptyOutput

/-- The output of the includeOpen = false run of the C10 witness. -/
def c10outF : Output :=
  (generateBurndownChart sprintMilestone [] { includeOpen := some false }).toOption.getD emptyOutput

theorem c10_includeOpen_independence_witness :
    c10outT.issuesOpenedByDay = c10outF.issuesOpenedByDay ∧
    c10outT.issuesClosedByDay = c10outF.issuesClosedByDay ∧
    c10outT.effortEstimatedByDay = c10outF.effortEstimatedByDay ∧
    c10outT.completedTasks = c10outF.completedTasks ∧
    c10outT.remainingTasks = c10outF.remainingTasks :=
  c10_includeOpen_independence sprintMilestone [] {} true false c10outT c10outF
    (by with_unfolding_all rfl) (by with_unfolding_all rfl)

end GitScribe
